import Mathlib

/-!
Shallow embedding of the FIT-to-GPX decoder (`fit2gpx.py`): the byte cursor,
the field/type decoder `parse_value`, the definition table, the message-stream
parsing loop, and the record projector, together with theorems settling the
specification claims about them.

Bytes are modelled as natural numbers, buffers as `List Nat`, Python integers
as `Int`, Python floats as uninterpreted IEEE bit patterns, and fallible code
as `Except PyErr`.
-/

namespace Fit2GPX

/-- Byte order selected by the architecture byte of a definition message
(zero means little-endian, nonzero big-endian). -/
inductive Endian where
  | little
  | big
  deriving DecidableEq

/-- A decoded Python value produced by the decoder: Python integers, floats
(kept as uninterpreted IEEE bit patterns, little-endian-normalised), `bytes`
objects (raw slices and the one-byte results of the struct code for text),
decoded text (as the list of its code points), and tuples. -/
inductive Value where
  | int (i : Int)
  | float32 (bits : Nat)
  | float64 (bits : Nat)
  | bytes (bs : List Nat)
  | str (cs : List Nat)
  | tuple (vs : List Value)

/-- Python exceptions the decoder can raise: indexing an empty `bytes`,
`struct.error` on a size mismatch, `UnicodeDecodeError`, `TypeError` from
arithmetic on a non-integer, and the ValueError — Missing definition for
local message — raised for an undefined local slot.  `outOfFuel` is an
artifact of the fuel-based loop embedding, unreachable when the fuel is at
least the declared body size. -/
inductive PyErr where
  | indexError
  | structError
  | unicodeDecodeError
  | typeError
  | undefinedLocalMessage (slot : Nat)
  | outOfFuel
  deriving DecidableEq

/-- The struct format characters appearing in the `base_formats` table of the
source (b B h H i I q Q f d s). -/
inductive Fmt where
  | i8
  | u8
  | i16
  | u16
  | i32
  | u32
  | i64
  | u64
  | f32
  | f64
  | s
  deriving DecidableEq

/-- The `base_formats` dictionary: base-type code (already masked to its low
five bits by the caller) to struct format character; codes 17 and above are
absent. -/
def base_formats : Nat → Option Fmt
  | 0 => some .u8
  | 1 => some .i8
  | 2 => some .u8
  | 3 => some .i16
  | 4 => some .u16
  | 5 => some .i32
  | 6 => some .u32
  | 7 => some .s
  | 8 => some .f32
  | 9 => some .f64
  | 10 => some .u8
  | 11 => some .u16
  | 12 => some .u32
  | 13 => some .u8
  | 14 => some .i64
  | 15 => some .u64
  | 16 => some .u64
  | _ => none

/-- `struct.calcsize` of one format character. -/
def Fmt.size : Fmt → Nat
  | .i8 => 1
  | .u8 => 1
  | .s => 1
  | .i16 => 2
  | .u16 => 2
  | .i32 => 4
  | .u32 => 4
  | .f32 => 4
  | .i64 => 8
  | .u64 => 8
  | .f64 => 8

/-- The unsigned integer denoted by a little-endian byte list. -/
def leVal (bs : List Nat) : Nat :=
  bs.foldr (fun b acc => b + 256 * acc) 0

/-- Twos-complement reinterpretation of a `w`-byte unsigned value as a
signed one. -/
def toSigned (w : Nat) (n : Nat) : Int :=
  if n < 2 ^ (8 * w - 1) then (n : Int) else (n : Int) - 2 ^ (8 * w)

/-- Bytes of one scalar in little-endian order: a big-endian slice is
reversed first. -/
def orient (e : Endian) (bs : List Nat) : List Nat :=
  match e with
  | .little => bs
  | .big => bs.reverse

/-- `struct.unpack` of a single format character applied to its slice of the
raw bytes (given in stream order). -/
def unpackOne (f : Fmt) (e : Endian) (bs : List Nat) : Value :=
  let n := leVal (orient e bs)
  match f with
  | .u8 => .int n
  | .u16 => .int n
  | .u32 => .int n
  | .u64 => .int n
  | .i8 => .int (toSigned 1 n)
  | .i16 => .int (toSigned 2 n)
  | .i32 => .int (toSigned 4 n)
  | .i64 => .int (toSigned 8 n)
  | .f32 => .float32 n
  | .f64 => .float64 n
  | .s => .bytes bs

/-- Split a byte list into `k` consecutive chunks of `w` bytes each. -/
def takeChunks (w : Nat) : Nat → List Nat → List (List Nat)
  | 0, _ => []
  | k + 1, bs => bs.take w :: takeChunks w k (bs.drop w)

/-- Strip trailing NUL bytes, as `str.rstrip` with a NUL argument does. -/
def rstripNul (bs : List Nat) : List Nat :=
  (bs.reverse.dropWhile (· == 0)).reverse

/-- The UTF-8 decode of vals[0] followed by the rstrip of trailing NULs, as
applied on the string path of `parse_value`.  There vals[0] is always a
one-byte `bytes` object (the text code unpacks single bytes), so UTF-8 validity coincides
with the ASCII bound checked here; non-`bytes` input would raise in Python
as well. -/
def decodeUtf8Rstrip (v : Value) : Except PyErr Value :=
  match v with
  | .bytes bs =>
      if bs.all (· < 128) then .ok (.str (rstripNul bs)) else .error .unicodeDecodeError
  | _ => .error .typeError

/-- `FitParser.parse_value`: mask the base type to its low five bits, look it
up in `base_formats` (unknown codes pass the raw slice through), unpack
`len(raw) // size` scalars (`struct.error` unless the slice length is an
exact multiple of the scalar width), take the string path only when the
unmasked code equals 7, and otherwise return the sole scalar when the count
is one and the tuple of scalars when it is not. -/
def parse_value (raw : List Nat) (base_type : Nat) (e : Endian) : Except PyErr Value :=
  let base_num := base_type &&& 0x1F
  match base_formats base_num with
  | none => .ok (.bytes raw)
  | some f =>
      let size := f.size
      let count := raw.length / size
      if raw.length % size ≠ 0 then .error .structError
      else
        let vals := (takeChunks size count raw).map (unpackOne f e)
        if base_type = 7 then
          match vals with
          | [] => .error .indexError
          | v :: _ => decodeUtf8Rstrip v
        else if count = 1 then
          match vals with
          | v :: _ => .ok v
          | [] => .error .indexError
        else .ok (.tuple vals)

/-- One stored message definition: global message number, ordered field
triples `(field id, declared size, base type)`, and byte order. -/
structure MsgDef where
  globalNum : Nat
  fields : List (Nat × Nat × Nat)
  endian : Endian
  deriving DecidableEq

/-- A decoded record: field identifier to value, most recent binding first
(so `List.lookup` has the overwrite semantics of a Python dict). -/
abbrev Fields := List (Nat × Value)

/-- The mutable state of `FitParser`: the input buffer, cursor position, the
definition table (most recent binding first), and the last known timestamp
(`None` initially). -/
structure PState where
  data : List Nat
  pos : Nat
  defs : List (Nat × MsgDef)
  last_timestamp : Option Value

/-- `FitParser.read`: return the slice `data[pos : pos+size]` — silently
shorter than `size` when the buffer runs out — and advance `pos` by the full
`size` regardless. -/
def read (s : PState) (size : Nat) : List Nat × PState :=
  ((s.data.drop s.pos).take size, { s with pos := s.pos + size })

/-- `self.read(1)[0]`: one byte, raising `IndexError` when the buffer is
exhausted (indexing an empty `bytes`). -/
def readByte (s : PState) : Except PyErr (Nat × PState) :=
  match read s 1 with
  | ([], _) => .error .indexError
  | (b :: _, s1) => .ok (b, s1)

/-- The two-byte unsigned struct unpack used for the global message number:
exactly two bytes required. -/
def unpackU16 (e : Endian) (bs : List Nat) : Except PyErr Nat :=
  if bs.length = 2 then .ok (leVal (orient e bs)) else .error .structError

/-- The `(field_def, size, base_type)` triples of a definition message:
`num_fields` rounds of three `read(1)[0]` calls. -/
def readFieldDefs : Nat → PState → Except PyErr (List (Nat × Nat × Nat) × PState)
  | 0, s => .ok ([], s)
  | n + 1, s =>
    match readByte s with
    | .error e => .error e
    | .ok (fd, s1) =>
      match readByte s1 with
      | .error e => .error e
      | .ok (sz, s2) =>
        match readByte s2 with
        | .error e => .error e
        | .ok (bt, s3) =>
          match readFieldDefs n s3 with
          | .error e => .error e
          | .ok (rest, s4) => .ok ((fd, sz, bt) :: rest, s4)

/-- `FitParser.parse_definition`: skip the reserved byte, read the
architecture byte (nonzero means big-endian), the byte-order-dependent
global message number, the field count and that many field triples, then
store the definition under the local slot, shadowing any previous one. -/
def parse_definition (s : PState) (local_msg : Nat) : Except PyErr PState :=
  let s0 := (read s 1).2
  match readByte s0 with
  | .error e => .error e
  | .ok (arch, s1) =>
    let endian := if arch ≠ 0 then Endian.big else Endian.little
    let p := read s1 2
    match unpackU16 endian p.1 with
    | .error e => .error e
    | .ok global_msg =>
      match readByte p.2 with
      | .error e => .error e
      | .ok (num_fields, s3) =>
        match readFieldDefs num_fields s3 with
        | .error e => .error e
        | .ok (fds, s4) =>
          .ok { s4 with defs := (local_msg, ⟨global_msg, fds, endian⟩) :: s4.defs }

/-- The field-decoding loop of `parse_data_message`: read each declared
declared slice, decode it with `parse_value`, and bind it (most recent
binding first, as dict assignment overwrites). -/
def decodeFields (e : Endian) (fds : List (Nat × Nat × Nat)) (s : PState)
    (acc : Fields) : Except PyErr (Fields × PState) :=
  match fds with
  | [] => .ok (acc, s)
  | (fd, size, bt) :: rest =>
    let p := read s size
    match parse_value p.1 bt e with
    | .error e2 => .error e2
    | .ok v => decodeFields e rest p.2 ((fd, v) :: acc)

/-- Decoding a data message against a given definition. -/
def decodeMessageFields (d : MsgDef) (s : PState) : Except PyErr (Fields × PState) :=
  decodeFields d.endian d.fields s []

/-- `FitParser.parse_data_message`: look up the live definition of the slot —
`ValueError` (modelled as `undefinedLocalMessage`) when there is none — and
decode each declared field in order. -/
def parse_data_message (s : PState) (local_msg : Nat) : Except PyErr (Fields × PState) :=
  match s.defs.lookup local_msg with
  | none => .error (.undefinedLocalMessage local_msg)
  | some d => decodeMessageFields d s

/-- `FitParser.get_global`. -/
def get_global (s : PState) (local_msg : Nat) : Option Nat :=
  (s.defs.lookup local_msg).map MsgDef.globalNum

/-- Python `x & ~0x1F` on an arbitrary-precision integer: clear the low five
bits, i.e. subtract the floor-residue modulo 32 (`Int.emod` by a positive
modulus is exactly the Python remainder). -/
def clearLow5 (t : Int) : Int := t - t % 32

/-- The compressed-timestamp reconstruction of lines 54–56 of the source:
`ts = (last & ~0x1F) + offset; if ts <= last: ts += 0x20`. -/
def compTs (t : Int) (offset : Nat) : Int :=
  let ts := clearLow5 t + offset
  if ts ≤ t then ts + 0x20 else ts

/-- Python `last_timestamp & ~0x1F` demands an integer: any other value
(float, bytes, str, tuple) raises `TypeError`. -/
def valueAsInt : Value → Except PyErr Int
  | .int i => .ok i
  | _ => .error .typeError

/-- One iteration of the `while self.pos < end` loop of `FitParser.parse`:
read the header byte, dispatch on compressed-timestamp / definition / data,
and return the record to append (when the global number of the slot is 20)
together with the new state. -/
def parseStep (s : PState) : Except PyErr (Option Fields × PState) :=
  match readByte s with
  | .error e => .error e
  | .ok (header, s1) =>
    if header &&& 0x80 ≠ 0 then
      let local_msg := (header >>> 5) &&& 0x3
      let time_offset := header &&& 0x1F
      let lastV : Value := match s1.last_timestamp with
        | none => Value.int 0
        | some v => v
      match valueAsInt lastV with
      | .error e => .error e
      | .ok t =>
        let ts := compTs t time_offset
        let s2 := { s1 with last_timestamp := some (Value.int ts) }
        match parse_data_message s2 local_msg with
        | .error e => .error e
        | .ok (fields, s3) =>
          let fields2 := (253, Value.int ts) :: fields
          if get_global s3 local_msg = some 20 then .ok (some fields2, s3)
          else .ok (none, s3)
    else if header &&& 0x40 ≠ 0 then
      match parse_definition s1 (header &&& 0x0F) with
      | .error e => .error e
      | .ok s2 => .ok (none, s2)
    else
      match parse_data_message s1 (header &&& 0x0F) with
      | .error e => .error e
      | .ok (fields, s2) =>
        match fields.lookup 253 with
        | some v =>
          let s3 := { s2 with last_timestamp := some v }
          if get_global s3 (header &&& 0x0F) = some 20 then .ok (some fields, s3)
          else .ok (none, s3)
        | none =>
          match s2.last_timestamp with
          | some v =>
            let fields2 := (253, v) :: fields
            if get_global s2 (header &&& 0x0F) = some 20 then .ok (some fields2, s2)
            else .ok (none, s2)
          | none =>
            if get_global s2 (header &&& 0x0F) = some 20 then .ok (some fields, s2)
            else .ok (none, s2)

/-- The `while self.pos < end` loop, with fuel (one unit per iteration; every
iteration advances `pos` by at least the header byte, so fuel equal to the
declared body size suffices). -/
def parseLoop : Nat → Nat → PState → List Fields → Except PyErr (List Fields × PState)
  | 0, endPos, s, acc =>
    if s.pos < endPos then .error .outOfFuel else .ok (acc.reverse, s)
  | fuel + 1, endPos, s, acc =>
    if s.pos < endPos then
      match parseStep s with
      | .error e => .error e
      | .ok (none, s1) => parseLoop fuel endPos s1 acc
      | .ok (some f, s1) => parseLoop fuel endPos s1 (f :: acc)
    else .ok (acc.reverse, s)

/-- `struct.unpack_from(chr 60 ++ chr 73, data, 4)[0]`: the little-endian
32-bit body size at offset 4, requiring at least eight bytes of buffer. -/
def dataSizeOf (data : List Nat) : Except PyErr Nat :=
  if data.length < 8 then .error .structError
  else .ok (leVal ((data.drop 4).take 4))

/-- `FitParser.parse`: read the header length byte (`IndexError` on an empty
buffer) and the body size, position the cursor after the header, and run the
message loop until the cursor reaches `header_size + data_size`, returning
the records whose definitions carry global number 20 in file order. -/
def parse (data : List Nat) : Except PyErr (List Fields × PState) :=
  match data with
  | [] => .error .indexError
  | b0 :: _ =>
    match dataSizeOf data with
    | .error e => .error e
    | .ok data_size =>
      parseLoop data_size (b0 + data_size) ⟨data, b0, [], none⟩ []

/-- A produced track point: latitude/longitude in degrees and elevation in
meters as exact rationals, plus the raw timestamp value when present. -/
structure TrackPoint where
  lat : ℚ
  lon : ℚ
  ele : Option ℚ
  time : Option Value

/-- The per-record body of `records_to_gpx`: a record lacking field 0 or 1
is silently dropped; otherwise latitude and longitude are
`value * 180 / 2^31` degrees, elevation is `value / 5 - 500` meters when
field 2 is present and omitted when absent, and field 253 supplies the
timestamp when present.  Arithmetic is modelled exactly over `ℚ` (the
division the source performs in IEEE doubles); integer-valued fields — the
device integers the format carries — are the modelled domain, and
float-typed field values are outside the rational model and mapped to
`typeError`. -/
def projectRecord (r : Fields) : Except PyErr (Option TrackPoint) :=
  match r.lookup 0, r.lookup 1 with
  | some v0, some v1 =>
    match valueAsInt v0, valueAsInt v1 with
    | .ok a, .ok b =>
      let lat : ℚ := (a : ℚ) * 180 / 2 ^ 31
      let lon : ℚ := (b : ℚ) * 180 / 2 ^ 31
      (match r.lookup 2 with
       | some v2 =>
         match valueAsInt v2 with
         | .ok c => .ok (some ⟨lat, lon, some ((c : ℚ) / 5 - 500), r.lookup 253⟩)
         | .error e => .error e
       | none => .ok (some ⟨lat, lon, none, r.lookup 253⟩))
    | .error e, _ => .error e
    | _, .error e => .error e
  | _, _ => .ok none

/-- The record loop of `records_to_gpx`: project every record in order,
keeping the points that survive the position check. -/
def records_to_gpx (rs : List Fields) : Except PyErr (List TrackPoint) :=
  match rs with
  | [] => .ok []
  | r :: rest =>
    match projectRecord r with
    | .error e => .error e
    | .ok none => records_to_gpx rest
    | .ok (some p) =>
      match records_to_gpx rest with
      | .error e => .error e
      | .ok ps => .ok (p :: ps)

/-- The scalar (non-tuple, non-text, non-bytes) decoded values: Python
integers and floats. -/
def IsScalarValue (v : Value) : Prop :=
  (∃ i, v = Value.int i) ∨ (∃ b, v = Value.float32 b) ∨ (∃ b, v = Value.float64 b)

/-- A truncated input: the header declares a 21-byte body (ending at offset
29) but the buffer stops at offset 25, so the final 4-byte field read gets
nothing.  Body: a definition message for slot 0 (global 20, fields
`(0, 4, sint32)` and `(1, 4, base type 17)`) followed by a data message
whose second field lies past the end of the buffer. -/
def c1buf : List Nat :=
  [8, 0, 0, 0, 21, 0, 0, 0,
   64, 0, 0, 20, 0, 2, 0, 4, 5, 1, 4, 17,
   0, 1, 0, 0, 0]

/-- A complete stream whose single data message carries no field 253 and is
decoded before any timestamp is known: a definition for slot 0 (global 20,
fields `(0, 4, sint32)` and `(1, 4, sint32)`) followed by one data message
of eight zero bytes. -/
def c4buf : List Nat :=
  [8, 0, 0, 0, 21, 0, 0, 0,
   64, 0, 0, 20, 0, 2, 0, 4, 5, 1, 4, 5,
   0, 0, 0, 0, 0, 0, 0, 0, 0]

theorem Fmt.size_pos (f : Fmt) : 0 < f.size := by
  cases f <;> simp [Fmt.size]

theorem takeChunks_length (w k : Nat) (bs : List Nat) :
    (takeChunks w k bs).length = k := by
  induction k generalizing bs with
  | zero => rfl
  | succ k ih => simp [takeChunks, ih]

theorem takeChunks_one (bs : List Nat) :
    takeChunks 1 bs.length bs = bs.map (fun x => [x]) := by
  induction bs with
  | nil => rfl
  | cons x xs ih => simpa [takeChunks] using ih

theorem read_snd (s : PState) (n : Nat) :
    (read s n).2 = { s with pos := s.pos + n } := rfl

theorem readByte_state (s : PState) (b : Nat) (s1 : PState)
    (h : readByte s = .ok (b, s1)) : s1 = { s with pos := s.pos + 1 } := by
  unfold readByte at h
  rcases hm : read s 1 with ⟨bs, s2⟩
  rw [hm] at h
  have h2 : s2 = { s with pos := s.pos + 1 } := by
    have := congrArg Prod.snd hm
    simpa [read] using this.symm
  cases bs with
  | nil => simp at h
  | cons x xs =>
    simp at h
    rw [← h.2, h2]

theorem readFieldDefs_state (n : Nat) :
    ∀ (s : PState) (l : List (Nat × Nat × Nat)) (s1 : PState),
    readFieldDefs n s = .ok (l, s1) →
    s1.data = s.data ∧ s1.defs = s.defs ∧ s1.last_timestamp = s.last_timestamp := by
  induction n with
  | zero =>
    intro s l s1 h
    unfold readFieldDefs at h
    simp at h
    rw [← h.2]
    exact ⟨rfl, rfl, rfl⟩
  | succ n ih =>
    intro s l s1 h
    unfold readFieldDefs at h
    cases h1 : readByte s with
    | error e => rw [h1] at h; exact absurd h (by simp)
    | ok p1 =>
      obtain ⟨fd, sa⟩ := p1
      rw [h1] at h
      dsimp only at h
      cases h2 : readByte sa with
      | error e => rw [h2] at h; exact absurd h (by simp)
      | ok p2 =>
        obtain ⟨sz, sb⟩ := p2
        rw [h2] at h
        dsimp only at h
        cases h3 : readByte sb with
        | error e => rw [h3] at h; exact absurd h (by simp)
        | ok p3 =>
          obtain ⟨bt, sc⟩ := p3
          rw [h3] at h
          dsimp only at h
          cases h4 : readFieldDefs n sc with
          | error e => rw [h4] at h; exact absurd h (by simp)
          | ok p4 =>
            obtain ⟨rest, sd⟩ := p4
            rw [h4] at h
            dsimp only at h
            simp at h
            have e1 := readByte_state _ _ _ h1
            have e2 := readByte_state _ _ _ h2
            have e3 := readByte_state _ _ _ h3
            have e4 := ih _ _ _ h4
            rw [← h.2]
            rw [e1] at e2
            rw [e2] at e3
            rw [e3] at e4
            simpa using e4

theorem parse_definition_state (s : PState) (l : Nat) (s1 : PState)
    (h : parse_definition s l = .ok s1) :
    s1.data = s.data ∧ s1.last_timestamp = s.last_timestamp ∧
    ∃ d, s1.defs = (l, d) :: s.defs := by
  unfold parse_definition at h
  dsimp only at h
  cases h1 : readByte (read s 1).2 with
  | error e => rw [h1] at h; exact absurd h (by simp)
  | ok p1 =>
    obtain ⟨arch, sa⟩ := p1
    rw [h1] at h
    dsimp only at h
    cases h2 : unpackU16 (if arch ≠ 0 then Endian.big else Endian.little) (read sa 2).1 with
    | error e => rw [h2] at h; exact absurd h (by simp)
    | ok gm =>
      rw [h2] at h
      dsimp only at h
      cases h3 : readByte (read sa 2).2 with
      | error e => rw [h3] at h; exact absurd h (by simp)
      | ok p3 =>
        obtain ⟨nf, sc⟩ := p3
        rw [h3] at h
        dsimp only at h
        cases h4 : readFieldDefs nf sc with
        | error e => rw [h4] at h; exact absurd h (by simp)
        | ok p4 =>
          obtain ⟨fds, sd⟩ := p4
          rw [h4] at h
          dsimp only at h
          simp at h
          have e1 := readByte_state _ _ _ h1
          have e3 := readByte_state _ _ _ h3
          have e4 := readFieldDefs_state _ _ _ _ h4
          rw [e3] at e4
          simp only [read] at e1 e4
          rw [e1] at e4
          rw [← h]
          simp only at e4 ⊢
          exact ⟨e4.1, e4.2.2, ⟨gm, fds, _⟩, by rw [e4.2.1]⟩

theorem decodeFields_state (e : Endian) (fds : List (Nat × Nat × Nat)) :
    ∀ (s : PState) (acc f : Fields) (s1 : PState),
    decodeFields e fds s acc = .ok (f, s1) →
    s1.data = s.data ∧ s1.defs = s.defs ∧ s1.last_timestamp = s.last_timestamp := by
  induction fds with
  | nil =>
    intro s acc f s1 h
    unfold decodeFields at h
    simp at h
    rw [← h.2]
    exact ⟨rfl, rfl, rfl⟩
  | cons t rest ih =>
    intro s acc f s1 h
    obtain ⟨fd, size, bt⟩ := t
    unfold decodeFields at h
    dsimp only at h
    cases hv : parse_value (read s size).1 bt e with
    | error e2 => rw [hv] at h; exact absurd h (by simp)
    | ok v =>
      rw [hv] at h
      dsimp only at h
      have := ih (read s size).2 ((fd, v) :: acc) f s1 h
      simpa [read] using this

theorem parse_data_message_state (s : PState) (l : Nat) (f : Fields) (s1 : PState)
    (h : parse_data_message s l = .ok (f, s1)) :
    s1.data = s.data ∧ s1.defs = s.defs ∧ s1.last_timestamp = s.last_timestamp := by
  unfold parse_data_message at h
  cases hd : s.defs.lookup l with
  | none => rw [hd] at h; exact absurd h (by simp)
  | some d =>
    rw [hd] at h
    exact decodeFields_state _ _ _ _ _ _ h

theorem parseLoop_succ (fuel endPos : Nat) (s : PState) (acc : List Fields)
    (hb : s.pos < endPos) :
    parseLoop (fuel + 1) endPos s acc =
      match parseStep s with
      | .error e => .error e
      | .ok (none, s2) => parseLoop fuel endPos s2 acc
      | .ok (some f, s2) => parseLoop fuel endPos s2 (f :: acc) := by
  have h0 : parseLoop (fuel + 1) endPos s acc =
      (if s.pos < endPos then
        match parseStep s with
        | .error e => .error e
        | .ok (none, s2) => parseLoop fuel endPos s2 acc
        | .ok (some f, s2) => parseLoop fuel endPos s2 (f :: acc)
      else .ok (acc.reverse, s)) := rfl
  rw [h0, if_pos hb]

/-- C1, amended: `read` never fails. When fewer bytes remain than a read requires it returns just the bytes available — `min n (length - pos)` of them, never more than `n` — and still advances the position by the full requested amount; no `TruncatedInput` error exists in the decoder. -/
theorem C1_read_never_fails (s : PState) (n : Nat) :
    ((read s n).1).length = min n (s.data.length - s.pos) ∧
    (read s n).2.pos = s.pos + n ∧ ((read s n).1).length ≤ n := by
  refine ⟨?_, rfl, ?_⟩
  · simp [read]
  · simp [read]

/-- C1, counterexample: on the truncated buffer `c1buf` a four-byte field read past the end of the buffer returns nothing, yet the decode pass does not fail with any truncation error: it succeeds, produces one record, and leaves the cursor at offset 29 although the buffer holds 25 bytes — refuting the claim that every short read aborts the pass with `TruncatedInput` and that no output is produced. -/
theorem C1_counterexample :
    parse c1buf =
      .ok ([[(1, Value.bytes []), (0, Value.int 1)]],
        ⟨c1buf, 29, [(0, ⟨20, [(0, 4, 5), (1, 4, 17)], Endian.little⟩)], none⟩) ∧
    c1buf.length = 25 :=
  ⟨rfl, rfl⟩

/-- C2: for every last-known timestamp `t` and five-bit offset `o`, the compressed-timestamp reconstruction equals `t` with its low five bits cleared plus `o`, plus 32 exactly when that candidate is not strictly greater than `t`; the result is strictly greater than `t` and congruent to `o` modulo 32; and in the parsing step it becomes the new last-known timestamp and is bound under field identifier 253 in the decoded record, shadowing any value decoded from the message body. -/
theorem C2_compressed_timestamp (t : Int) (o : Nat) (ho : o < 32) :
    compTs t o = clearLow5 t + o + (if clearLow5 t + (o : Int) ≤ t then 32 else 0) ∧
    t < compTs t o ∧
    compTs t o % 32 = (o : Int) ∧
    (∀ (s s1 : PState) (header : Nat) (r : Option Fields) (s2 : PState),
      readByte s = .ok (header, s1) → header &&& 0x80 ≠ 0 → header &&& 0x1F = o →
      s.last_timestamp = some (.int t) →
      parseStep s = .ok (r, s2) →
      s2.last_timestamp = some (.int (compTs t o)) ∧
      (∀ f, r = some f → f.lookup 253 = some (.int (compTs t o)))) := by
  refine ⟨?_, ?_, ?_, ?_⟩
  · unfold compTs clearLow5
    dsimp only
    split <;> omega
  · unfold compTs clearLow5
    dsimp only
    split <;> omega
  · unfold compTs clearLow5
    dsimp only
    split <;> omega
  · intro s s1 header r s2 hread h80 hoff hlast hstep
    have hs1 := readByte_state _ _ _ hread
    subst hs1
    unfold parseStep at hstep
    rw [hread] at hstep
    dsimp only at hstep
    rw [if_pos h80, hlast] at hstep
    dsimp only [valueAsInt] at hstep
    rw [hoff] at hstep
    cases hd : parse_data_message
        { data := s.data, pos := s.pos + 1, defs := s.defs,
          last_timestamp := some (Value.int (compTs t o)) }
        ((header >>> 5) &&& 0x3) with
    | error e => rw [hd] at hstep; exact absurd hstep (by simp)
    | ok p =>
      obtain ⟨fields, s3⟩ := p
      rw [hd] at hstep
      dsimp only at hstep
      have hpres := parse_data_message_state _ _ _ _ hd
      split at hstep <;>
        · rw [Except.ok.injEq, Prod.mk.injEq] at hstep
          obtain ⟨hr, hs2⟩ := hstep
          subst hs2
          refine ⟨hpres.2.2, ?_⟩
          intro f hf
          rw [← hr] at hf
          first
          | · injection hf with hf2
              rw [← hf2]
              rfl
          | exact Option.noConfusion hf

/-- Witness for C2 at the specification example: last timestamp 100 and offset 2 give 130. -/
theorem C2_witness :
    (2 : Nat) < 32 ∧ (100 : Int) < compTs 100 2 ∧
    compTs 100 2 % 32 = 2 ∧ compTs 100 2 = 130 :=
  ⟨by decide, (C2_compressed_timestamp 100 2 (by decide)).2.1,
   (C2_compressed_timestamp 100 2 (by decide)).2.2.1, by decide⟩

/-- C3: a data message or compressed-timestamp message whose local slot has no live definition makes the parsing loop fail at once with `undefinedLocalMessage` for that slot, so the whole decode pass aborts with that error and yields no record list. -/
theorem C3_undefined_slot (fuel endPos : Nat) (acc : List Fields) (s s1 : PState)
    (header : Nat)
    (hread : readByte s = .ok (header, s1)) (hbound : s.pos < endPos) :
    (header &&& 0x80 = 0 → header &&& 0x40 = 0 →
       s1.defs.lookup (header &&& 0x0F) = none →
       parseLoop (fuel + 1) endPos s acc =
         .error (.undefinedLocalMessage (header &&& 0x0F))) ∧
    (header &&& 0x80 ≠ 0 → s1.defs.lookup ((header >>> 5) &&& 0x3) = none →
       (s1.last_timestamp = none ∨ ∃ t, s1.last_timestamp = some (Value.int t)) →
       parseLoop (fuel + 1) endPos s acc =
         .error (.undefinedLocalMessage ((header >>> 5) &&& 0x3))) := by
  have hloop := parseLoop_succ fuel endPos s acc hbound
  constructor
  · intro h80 h40 hlook
    rw [hloop]
    unfold parseStep
    rw [hread]
    dsimp only
    rw [if_neg (fun hc => hc h80), if_neg (fun hc => hc h40)]
    unfold parse_data_message
    rw [hlook]
  · intro h80 hlook hlast
    rw [hloop]
    unfold parseStep
    rw [hread]
    dsimp only
    rw [if_pos h80]
    rcases hlast with hl | ⟨t, hl⟩ <;>
      · rw [hl]
        dsimp only [valueAsInt]
        unfold parse_data_message
        dsimp only
        rw [hlook]

/-- Witness for C3: a one-byte body holding a data-message header for the undefined slot 0. -/
theorem C3_witness :
    readByte ⟨[0], 0, [], none⟩ = .ok (0, ⟨[0], 1, [], none⟩) ∧
    (0 : Nat) < 1 ∧
    List.lookup 0 (PState.defs ⟨[0], 1, [], none⟩) = none ∧
    parseLoop 1 1 ⟨[0], 0, [], none⟩ [] = .error (.undefinedLocalMessage 0) := by
  refine ⟨rfl, by decide, rfl, ?_⟩
  exact (C3_undefined_slot 0 1 [] ⟨[0], 0, [], none⟩ ⟨[0], 1, [], none⟩ 0 rfl
    (by decide)).1 rfl rfl rfl

/-- C4, amended: every record forwarded by a parsing step contains field identifier 253 provided a last-known timestamp exists when the step begins; only a plain data message decoded before any timestamp and lacking 253 in its body is forwarded without it (and the projector guards that case with a presence check). -/
theorem C4_timestamp_presence (s : PState) (r : Fields) (s2 : PState)
    (hstep : parseStep s = .ok (some r, s2)) (hlast : s.last_timestamp.isSome) :
    (r.lookup 253).isSome := by
  unfold parseStep at hstep
  cases hread : readByte s with
  | error e => rw [hread] at hstep; exact Except.noConfusion hstep
  | ok p =>
    obtain ⟨header, s1⟩ := p
    rw [hread] at hstep
    dsimp only at hstep
    have hs1 := readByte_state _ _ _ hread
    subst hs1
    by_cases h80 : header &&& 0x80 ≠ 0
    · rw [if_pos h80] at hstep
      dsimp only at hstep
      cases hl : s.last_timestamp with
      | none => rw [hl] at hlast; exact Bool.noConfusion hlast
      | some v =>
        rw [hl] at hstep
        dsimp only at hstep
        cases v with
        | int t =>
          dsimp only [valueAsInt] at hstep
          split at hstep
          · exact Except.noConfusion hstep
          · rename_i fields s3 heq
            split at hstep <;>
              · rw [Except.ok.injEq, Prod.mk.injEq] at hstep
                obtain ⟨hr, hs2⟩ := hstep
                first
                | · injection hr with hr2
                    rw [← hr2]
                    rfl
                | exact Option.noConfusion hr
        | float32 b => dsimp only [valueAsInt] at hstep; exact Except.noConfusion hstep
        | float64 b => dsimp only [valueAsInt] at hstep; exact Except.noConfusion hstep
        | bytes bs => dsimp only [valueAsInt] at hstep; exact Except.noConfusion hstep
        | str cs => dsimp only [valueAsInt] at hstep; exact Except.noConfusion hstep
        | tuple vs => dsimp only [valueAsInt] at hstep; exact Except.noConfusion hstep
    · rw [if_neg h80] at hstep
      by_cases h40 : header &&& 0x40 ≠ 0
      · rw [if_pos h40] at hstep
        split at hstep
        · exact Except.noConfusion hstep
        · rw [Except.ok.injEq, Prod.mk.injEq] at hstep
          exact Option.noConfusion hstep.1
      · rw [if_neg h40] at hstep
        split at hstep
        · exact Except.noConfusion hstep
        · rename_i fields s3 heq
          have hpres := parse_data_message_state _ _ _ _ heq
          split at hstep
          · rename_i v h253
            split at hstep <;>
              · rw [Except.ok.injEq, Prod.mk.injEq] at hstep
                obtain ⟨hr, hs2⟩ := hstep
                first
                | · injection hr with hr2
                    rw [← hr2, h253]
                    rfl
                | exact Option.noConfusion hr
          · rename_i h253
            split at hstep
            · rename_i v hl3
              split at hstep <;>
                · rw [Except.ok.injEq, Prod.mk.injEq] at hstep
                  obtain ⟨hr, hs2⟩ := hstep
                  first
                  | · injection hr with hr2
                      rw [← hr2]
                      rfl
                  | exact Option.noConfusion hr
            · rename_i hl3
              rw [hpres.2.2] at hl3
              dsimp only at hl3
              rw [hl3] at hlast
              exact Bool.noConfusion hlast

/-- C4, counterexample: the complete stream `c4buf` forwards a record of global number 20 that has no field 253 — its body lacks the field and no timestamp was known yet — refuting the claim that every forwarded record contains field identifier 253. -/
theorem C4_counterexample :
    parse c4buf =
      .ok ([[(1, Value.int 0), (0, Value.int 0)]],
        ⟨c4buf, 29, [(0, ⟨20, [(0, 4, 5), (1, 4, 5)], Endian.little⟩)], none⟩) ∧
    List.lookup 253 [(1, Value.int 0), (0, Value.int 0)] = none :=
  ⟨rfl, rfl⟩

/-- Witness for C4 at a concrete data message decoded with a known last timestamp. -/
theorem C4_witness :
    parseStep ⟨[0, 5], 0, [(0, ⟨20, [(0, 1, 2)], Endian.little⟩)], some (Value.int 99)⟩ =
      .ok (some [(253, Value.int 99), (0, Value.int 5)],
        ⟨[0, 5], 2, [(0, ⟨20, [(0, 1, 2)], Endian.little⟩)], some (Value.int 99)⟩) ∧
    (Option.some (Value.int 99)).isSome = true ∧
    (List.lookup 253 [(253, Value.int 99), (0, Value.int 5)]).isSome = true :=
  ⟨rfl, rfl, C4_timestamp_presence
    ⟨[0, 5], 0, [(0, ⟨20, [(0, 1, 2)], Endian.little⟩)], some (Value.int 99)⟩
    [(253, Value.int 99), (0, Value.int 5)]
    ⟨[0, 5], 2, [(0, ⟨20, [(0, 1, 2)], Endian.little⟩)], some (Value.int 99)⟩
    rfl rfl⟩

/-- C5, amended: for a recognized numeric base type, a slice whose length is an exact multiple `k > 1` of the scalar width decodes to a `k`-element array with the byte order applied to every scalar, a slice of exactly the scalar width decodes to a single scalar, and a slice whose length is not a multiple of the width fails with a struct unpack error. -/
theorem C5_array_vs_scalar (raw : List Nat) (base_type : Nat) (e : Endian) (f : Fmt)
    (hf : base_formats (base_type &&& 0x1F) = some f) (hs : f ≠ Fmt.s) :
    (raw.length = f.size →
       parse_value raw base_type e = .ok (unpackOne f e raw) ∧
       IsScalarValue (unpackOne f e raw)) ∧
    (∀ k, 1 < k → raw.length = k * f.size →
       parse_value raw base_type e =
         .ok (.tuple ((takeChunks f.size k raw).map (unpackOne f e))) ∧
       ((takeChunks f.size k raw).map (unpackOne f e)).length = k) ∧
    (raw.length % f.size ≠ 0 → parse_value raw base_type e = .error .structError) := by
  have hb7 : base_type ≠ 7 := by
    intro hb
    subst hb
    rw [show (7 : Nat) &&& 0x1F = 7 by decide] at hf
    rw [show base_formats 7 = some Fmt.s from rfl] at hf
    exact hs (Option.some.injEq _ _ ▸ hf).symm
  refine ⟨?_, ?_, ?_⟩
  · intro hl
    have hmod : raw.length % f.size = 0 := by rw [hl]; exact Nat.mod_self _
    have hcount : raw.length / f.size = 1 := by rw [hl]; exact Nat.div_self (Fmt.size_pos f)
    have hchunk : takeChunks f.size 1 raw = [raw] := by
      simp [takeChunks, List.take_of_length_le (le_of_eq hl)]
    constructor
    · unfold parse_value
      dsimp only
      rw [hf]
      dsimp only
      rw [hmod, hcount]
      simp [hb7, hchunk]
    · cases f with
      | s => exact absurd rfl hs
      | i8 => exact Or.inl ⟨_, rfl⟩
      | u8 => exact Or.inl ⟨_, rfl⟩
      | i16 => exact Or.inl ⟨_, rfl⟩
      | u16 => exact Or.inl ⟨_, rfl⟩
      | i32 => exact Or.inl ⟨_, rfl⟩
      | u32 => exact Or.inl ⟨_, rfl⟩
      | i64 => exact Or.inl ⟨_, rfl⟩
      | u64 => exact Or.inl ⟨_, rfl⟩
      | f32 => exact Or.inr (Or.inl ⟨_, rfl⟩)
      | f64 => exact Or.inr (Or.inr ⟨_, rfl⟩)
  · intro k hk hl
    have hmod : raw.length % f.size = 0 := by rw [hl]; exact Nat.mul_mod_left _ _
    have hcount : raw.length / f.size = k := by
      rw [hl]; exact Nat.mul_div_cancel _ (Fmt.size_pos f)
    constructor
    · unfold parse_value
      dsimp only
      rw [hf]
      dsimp only
      rw [hmod, hcount]
      simp [hb7, Nat.ne_of_gt hk]
    · rw [List.length_map, takeChunks_length]
  · intro hmod
    unfold parse_value
    dsimp only
    rw [hf]
    dsimp only
    rw [if_pos hmod]

/-- C5, counterexample: a three-byte slice with the 16-bit-unsigned base type is not decoded as a single scalar, as the claim requires for lengths that are not multiples greater than one of the width: `parse_value` fails with a struct unpack error. -/
theorem C5_counterexample :
    parse_value [0, 0, 0] 4 Endian.little = .error .structError ∧
    parse_value [0, 0, 0] 4 Endian.little ≠ .ok (.int 0) :=
  ⟨rfl, by intro h; exact Except.noConfusion (rfl.trans h)⟩

/-- Witness for C5: size 8 with 16-bit unsigned gives a 4-element array, size 2 a single scalar. -/
theorem C5_witness :
    base_formats (4 &&& 0x1F) = some Fmt.u16 ∧
    parse_value [1, 0, 2, 0, 3, 0, 4, 0] 4 Endian.little =
      .ok (.tuple [.int 1, .int 2, .int 3, .int 4]) ∧
    parse_value [52, 18] 4 Endian.little = .ok (.int 4660) := by
  refine ⟨rfl, ?_, ?_⟩
  · have := ((C5_array_vs_scalar [1, 0, 2, 0, 3, 0, 4, 0] 4 Endian.little Fmt.u16 rfl
      (by intro h; exact Fmt.noConfusion h)).2.1 4 (by decide) rfl).1
    exact this.trans rfl
  · have := ((C5_array_vs_scalar [52, 18] 4 Endian.little Fmt.u16 rfl
      (by intro h; exact Fmt.noConfusion h)).1 rfl).1
    exact this.trans rfl

/-- C6, amended: the numeric kind is chosen by masking the base-type code to its low five bits, but the UTF-8 text path is taken only when the unmasked code equals 7; codes with masked value 7 yet different from 7 fall through to the generic path as one-byte bytes values, and the code-7 path decodes only the first byte of the slice, stripping a trailing NUL. -/
theorem C6_string_path (b : Nat) (e : Endian) (b0 : Nat) (rest : List Nat)
    (hmask : b &&& 0x1F = 7) (hne : b ≠ 7) :
    parse_value (b0 :: rest) b e =
      (if rest = [] then .ok (.bytes [b0])
       else .ok (.tuple ((b0 :: rest).map fun x => .bytes [x]))) ∧
    parse_value (b0 :: rest) 7 e =
      (if b0 < 128 then .ok (.str (rstripNul [b0])) else .error .unicodeDecodeError) := by
  have hchunks : (takeChunks 1 (b0 :: rest).length (b0 :: rest)).map
      (unpackOne Fmt.s e) = (b0 :: rest).map (fun x => .bytes [x]) := by
    rw [takeChunks_one, List.map_map]
    rfl
  constructor
  · unfold parse_value
    dsimp only
    rw [hmask, show base_formats 7 = some Fmt.s from rfl]
    dsimp only [Fmt.size]
    rw [Nat.mod_one, Nat.div_one]
    rw [if_neg (by simp), if_neg hne, hchunks]
    cases rest with
    | nil => simp
    | cons r1 rs => simp
  · unfold parse_value
    dsimp only
    rw [show (7 : Nat) &&& 0x1F = 7 by decide, show base_formats 7 = some Fmt.s from rfl]
    dsimp only [Fmt.size]
    rw [Nat.mod_one, Nat.div_one]
    rw [if_neg (by simp), if_pos rfl, hchunks]
    dsimp only [List.map]
    unfold decodeUtf8Rstrip
    simp only [List.all_cons, List.all_nil, Bool.and_true, decide_eq_true_eq]

/-- C6, counterexample: base-type code 39 has low five bits 7 (the text kind) but is not decoded as a UTF-8 string — it yields a tuple of one-byte slices — and even the exact code 7 returns only the first byte of the slice rather than the whole NUL-trimmed text. -/
theorem C6_counterexample :
    parse_value [65, 66, 0] 39 Endian.little =
      .ok (.tuple [.bytes [65], .bytes [66], .bytes [0]]) ∧
    parse_value [65, 66, 0] 39 Endian.little ≠ .ok (.str [65, 66]) ∧
    parse_value [65, 66, 0] 7 Endian.little = .ok (.str [65]) ∧
    parse_value [65, 66, 0] 7 Endian.little ≠ .ok (.str [65, 66]) := by
  refine ⟨rfl, ?_, rfl, ?_⟩
  · intro h
    have h2 := (rfl.trans h :
      (Except.ok (Value.tuple [.bytes [65], .bytes [66], .bytes [0]]) :
        Except PyErr Value) = .ok (.str [65, 66]))
    injection h2 with h3
    exact Value.noConfusion h3
  · intro h
    have h2 := (rfl.trans h :
      (Except.ok (Value.str [65]) : Except PyErr Value) = .ok (.str [65, 66]))
    injection h2 with h3
    injection h3 with h4
    simp at h4

/-- Witness for C6 at code 39 versus code 7 on a two-byte slice. -/
theorem C6_witness :
    ((39 : Nat) &&& 0x1F = 7 ∧ (39 : Nat) ≠ 7) ∧
    parse_value [66, 67] 39 Endian.little = .ok (.tuple [.bytes [66], .bytes [67]]) ∧
    parse_value [66, 67] 7 Endian.little = .ok (.str [66]) := by
  refine ⟨⟨by decide, by decide⟩, ?_, ?_⟩
  · have := (C6_string_path 39 Endian.little 66 [67] (by decide) (by decide)).1
    exact this.trans rfl
  · have := (C6_string_path 39 Endian.little 66 [67] (by decide) (by decide)).2
    exact this.trans rfl

/-- C7: a record forwarded to the projector without both fields 0 and 1 present is silently dropped — no error and no track point — and with both present the latitude and longitude are `value * 180 / 2^31` degrees, while the elevation is `value / 5 - 500` meters from field 2 when present and omitted entirely when field 2 is absent. -/
theorem C7_projector (r : Fields) :
    ((r.lookup 0 = none ∨ r.lookup 1 = none) → projectRecord r = .ok none) ∧
    (∀ a b : Int, r.lookup 0 = some (.int a) → r.lookup 1 = some (.int b) →
      (r.lookup 2 = none →
        projectRecord r = .ok (some ⟨(a : ℚ) * 180 / 2 ^ 31, (b : ℚ) * 180 / 2 ^ 31,
          none, r.lookup 253⟩)) ∧
      (∀ c : Int, r.lookup 2 = some (.int c) →
        projectRecord r = .ok (some ⟨(a : ℚ) * 180 / 2 ^ 31, (b : ℚ) * 180 / 2 ^ 31,
          some ((c : ℚ) / 5 - 500), r.lookup 253⟩))) := by
  constructor
  · intro hdrop
    unfold projectRecord
    rcases hdrop with h0 | h1
    · rw [h0]
    · rw [h1]
      cases r.lookup 0 <;> rfl
  · intro a b h0 h1
    constructor
    · intro h2
      unfold projectRecord
      rw [h0, h1, h2]
      rfl
    · intro c h2
      unfold projectRecord
      rw [h0, h1, h2]
      rfl

/-- Witness for C7: the empty record is dropped and a zero record maps to the origin. -/
theorem C7_witness :
    (List.lookup 0 ([] : Fields) = none ∨ List.lookup 1 ([] : Fields) = none) ∧
    projectRecord [] = .ok none ∧
    List.lookup 0 [(0, Value.int 0), (1, Value.int 0), (253, Value.int 0)] =
      some (Value.int 0) ∧
    projectRecord [(0, Value.int 0), (1, Value.int 0), (253, Value.int 0)] =
      .ok (some ⟨0, 0, none, some (Value.int 0)⟩) := by
  refine ⟨Or.inl rfl, (C7_projector []).1 (Or.inl rfl), rfl, ?_⟩
  have := ((C7_projector [(0, Value.int 0), (1, Value.int 0), (253, Value.int 0)]).2
    0 0 rfl rfl).1 rfl
  rw [this]
  norm_num [List.lookup]
  rfl

/-- C8: a successful definition message for a slot installs its parsed definition at the head of the definition table, so the slot lookup now returns it regardless of any earlier definition for the same slot, other slots are unaffected, and a subsequent data message for the slot decodes with exactly this most recent definition. -/
theorem C8_definition_overwrite (s : PState) (l : Nat) (s1 : PState)
    (h : parse_definition s l = .ok s1) :
    ∃ d, s1.defs = (l, d) :: s.defs ∧ s1.defs.lookup l = some d ∧
      (∀ l2, l2 ≠ l → s1.defs.lookup l2 = s.defs.lookup l2) ∧
      parse_data_message s1 l = decodeMessageFields d s1 := by
  obtain ⟨-, -, d, hd⟩ := parse_definition_state _ _ _ h
  refine ⟨d, hd, ?_, ?_, ?_⟩
  · rw [hd]
    simp [List.lookup]
  · intro l2 hne
    rw [hd]
    have hbeq : (l2 == l) = false := beq_eq_false_iff_ne.mpr hne
    simp [List.lookup, hbeq]
  · unfold parse_data_message
    rw [hd]
    simp [List.lookup]

/-- Witness for C8: redefining slot 0 shadows its earlier definition. -/
theorem C8_witness :
    parse_definition ⟨[0, 0, 20, 0, 1, 0, 1, 2], 0,
        [(0, ⟨99, [], Endian.big⟩)], none⟩ 0 =
      .ok ⟨[0, 0, 20, 0, 1, 0, 1, 2], 8,
        [(0, ⟨20, [(0, 1, 2)], Endian.little⟩), (0, ⟨99, [], Endian.big⟩)], none⟩ ∧
    List.lookup 0
        [(0, (⟨20, [(0, 1, 2)], Endian.little⟩ : MsgDef)), (0, ⟨99, [], Endian.big⟩)] =
      some ⟨20, [(0, 1, 2)], Endian.little⟩ ∧
    List.lookup 7
        [(0, (⟨20, [(0, 1, 2)], Endian.little⟩ : MsgDef)), (0, ⟨99, [], Endian.big⟩)] =
      List.lookup 7 [(0, (⟨99, [], Endian.big⟩ : MsgDef))] := by
  have hdef : parse_definition ⟨[0, 0, 20, 0, 1, 0, 1, 2], 0,
      [(0, ⟨99, [], Endian.big⟩)], none⟩ 0 =
      .ok ⟨[0, 0, 20, 0, 1, 0, 1, 2], 8,
        [(0, ⟨20, [(0, 1, 2)], Endian.little⟩), (0, ⟨99, [], Endian.big⟩)], none⟩ := rfl
  obtain ⟨d, hd, hl, hne, -⟩ := C8_definition_overwrite _ 0 _ hdef
  have hdval : d = ⟨20, [(0, 1, 2)], Endian.little⟩ := by
    injection hd with h1 h2
    injection h1 with ha hb
    exact hb.symm
  subst hdval
  exact ⟨hdef, hl, hne 7 (by decide)⟩

/-- C9: a base-type code whose low five bits are not in the `base_formats` table decodes to the raw byte slice unchanged, raising no error. -/
theorem C9_unrecognized_passthrough (raw : List Nat) (base_type : Nat) (e : Endian)
    (h : base_formats (base_type &&& 0x1F) = none) :
    parse_value raw base_type e = .ok (.bytes raw) := by
  unfold parse_value
  dsimp only
  rw [h]

/-- Witness for C9 at the unrecognized base-type code 20. -/
theorem C9_witness :
    base_formats (20 &&& 0x1F) = none ∧
    parse_value [1, 2, 3] 20 Endian.little = .ok (.bytes [1, 2, 3]) :=
  ⟨rfl, C9_unrecognized_passthrough [1, 2, 3] 20 Endian.little rfl⟩

/-- C10: a compressed-timestamp message arriving while the last-known timestamp is unset treats it as zero instead of failing: the reconstructed timestamp is the five-bit offset itself when the offset is positive and 32 when the offset is zero, and it is bound under field identifier 253 and becomes the new last-known timestamp. -/
theorem C10_default_timestamp (o : Nat) (ho : o < 32) :
    compTs 0 o = (if o = 0 then 32 else (o : Int)) ∧
    (∀ (s s1 : PState) (header : Nat) (r : Option Fields) (s2 : PState),
      readByte s = .ok (header, s1) → header &&& 0x80 ≠ 0 →
      s.last_timestamp = none →
      parseStep s = .ok (r, s2) →
      s2.last_timestamp = some (.int (compTs 0 (header &&& 0x1F))) ∧
      (∀ f, r = some f → f.lookup 253 = some (.int (compTs 0 (header &&& 0x1F))))) := by
  constructor
  · unfold compTs clearLow5
    dsimp only
    split <;> split <;> omega
  · intro s s1 header r s2 hread h80 hlast hstep
    have hs1 := readByte_state _ _ _ hread
    subst hs1
    unfold parseStep at hstep
    rw [hread] at hstep
    dsimp only at hstep
    rw [if_pos h80, hlast] at hstep
    dsimp only [valueAsInt] at hstep
    cases hd : parse_data_message
        { data := s.data, pos := s.pos + 1, defs := s.defs,
          last_timestamp := some (Value.int (compTs 0 (header &&& 0x1F))) }
        ((header >>> 5) &&& 0x3) with
    | error e => rw [hd] at hstep; exact absurd hstep (by simp)
    | ok p =>
      obtain ⟨fields, s3⟩ := p
      rw [hd] at hstep
      dsimp only at hstep
      have hpres := parse_data_message_state _ _ _ _ hd
      split at hstep <;>
        · rw [Except.ok.injEq, Prod.mk.injEq] at hstep
          obtain ⟨hr, hs2⟩ := hstep
          subst hs2
          refine ⟨hpres.2.2, ?_⟩
          intro f hf
          rw [← hr] at hf
          first
          | · injection hf with hf2
              rw [← hf2]
              rfl
          | exact Option.noConfusion hf

/-- Witness for C10 at offsets 0 and 5. -/
theorem C10_witness :
    (0 : Nat) < 32 ∧ (5 : Nat) < 32 ∧ compTs 0 0 = 32 ∧ compTs 0 5 = 5 :=
  ⟨by decide, by decide,
   by simpa using (C10_default_timestamp 0 (by decide)).1,
   by simpa using (C10_default_timestamp 5 (by decide)).1⟩


end Fit2GPX
